import Mathlib

/-!
Verification of the chainlink-relay median LOOP plugin protocol and the
mercury on-chain config codec, as a shallow embedding of the Go source
(pkg/reportingplugins/mercury/onchain_config.go and
pkg/loop/internal/median.go).
-/

namespace Mercury

/-- Modelled from the spec: the fixed-width big-endian byte writer underlying
the wire codecs (the bigbigendian helper package is an external dependency
whose source is not part of this repository sample). Most significant byte
first; `toBytesBE n v` writes the low `8*n` bits of `v` into `n` bytes. -/
def toBytesBE : Nat → Nat → List Nat
  | 0, _ => []
  | n + 1, v => toBytesBE n (v / 256) ++ [v % 256]

/-- Modelled from the spec: big-endian byte reader, inverse of `toBytesBE`. -/
def fromBytesBE (b : List Nat) : Nat :=
  b.foldl (fun acc d => acc * 256 + d) 0

/-- Modelled from the spec: `bigbigendian.SerializeSigned` — a signed
arbitrary-precision integer is written as `size` bytes of big-endian twos
complement; values outside `[-2^(8*size-1), 2^(8*size-1)-1]` are rejected. -/
def SerializeSigned (size : Nat) (x : Int) : Except String (List Nat) :=
  if x < -((2 ^ (8 * size - 1) : Nat) : Int) ∨ ((2 ^ (8 * size - 1) : Nat) : Int) ≤ x then
    .error "value does not fit in the requested size"
  else
    .ok (toBytesBE size (Int.toNat (if x < 0 then x + ((2 ^ (8 * size) : Nat) : Int) else x)))

/-- Modelled from the spec: `bigbigendian.DeserializeSigned` — exactly `size`
bytes are read as big-endian twos complement. -/
def DeserializeSigned (size : Nat) (b : List Nat) : Except String Int :=
  if b.length ≠ size then
    .error "wrong size"
  else if 2 ^ (8 * size - 1) ≤ fromBytesBE b then
    .ok ((fromBytesBE b : Int) - ((2 ^ (8 * size) : Nat) : Int))
  else
    .ok (fromBytesBE b : Int)

/-- Version tag of the mercury on-chain config wire format
(onchain_config.go: onchainConfigVersion). -/
def onchainConfigVersion : Int := 1

/-- Encoded length: 3 x 32-byte words, version + min + max
(onchain_config.go: onchainConfigEncodedLength). -/
def onchainConfigEncodedLength : Nat := 96

/-- OnchainConfig (onchain_config.go): Min and Max are arbitrary-precision
signed integers. -/
structure OnchainConfig where
  Min : Int
  Max : Int
deriving DecidableEq

/-- Shallow embedding of StandardOnchainConfigCodec.Decode
(onchain_config.go lines 34-61): length check, version word check, the two
signed words, then the Min ≤ Max check. -/
def Decode (b : List Nat) : Except String OnchainConfig :=
  if b.length ≠ onchainConfigEncodedLength then
    .error "unexpected length of OnchainConfig"
  else
    match DeserializeSigned 32 (b.take 32) with
    | .error e => .error e
    | .ok v =>
      if v ≠ onchainConfigVersion then
        .error "unexpected version of OnchainConfig"
      else
        match DeserializeSigned 32 ((b.drop 32).take 32) with
        | .error e => .error e
        | .ok mn =>
          match DeserializeSigned 32 (b.drop 64) with
          | .error e => .error e
          | .ok mx =>
            if ¬ (mn ≤ mx) then
              .error "OnchainConfig min should not be greater than max"
            else
              .ok ⟨mn, mx⟩

/-- Shallow embedding of StandardOnchainConfigCodec.Encode
(onchain_config.go lines 63-81): serialize version, Min, Max as three
32-byte signed words and concatenate. No Min ≤ Max validation is performed. -/
def Encode (c : OnchainConfig) : Except String (List Nat) :=
  match SerializeSigned 32 onchainConfigVersion with
  | .error e => .error e
  | .ok verBytes =>
    match SerializeSigned 32 c.Min with
    | .error e => .error e
    | .ok minBytes =>
      match SerializeSigned 32 c.Max with
      | .error e => .error e
      | .ok maxBytes =>
        .ok (verBytes ++ (minBytes ++ maxBytes))

theorem toBytesBE_length (n v : Nat) : (toBytesBE n v).length = n := by
  induction n generalizing v with
  | zero => simp [toBytesBE]
  | succ n ih => simp [toBytesBE, ih]

theorem fromBytesBE_append_singleton (l : List Nat) (d : Nat) :
    fromBytesBE (l ++ [d]) = fromBytesBE l * 256 + d := by
  simp [fromBytesBE, List.foldl_append]

theorem fromBytesBE_toBytesBE (n : Nat) (v : Nat) (h : v < 256 ^ n) :
    fromBytesBE (toBytesBE n v) = v := by
  induction n generalizing v with
  | zero =>
    simp [toBytesBE, fromBytesBE]
    omega
  | succ n ih =>
    rw [toBytesBE, fromBytesBE_append_singleton, ih (v / 256) ?_]
    · omega
    · have : 256 ^ (n + 1) = 256 ^ n * 256 := pow_succ 256 n
      omega

theorem SerializeSigned_ok (size : Nat) (x : Int)
    (h1 : -((2 ^ (8 * size - 1) : Nat) : Int) ≤ x)
    (h2 : x < ((2 ^ (8 * size - 1) : Nat) : Int)) :
    SerializeSigned size x =
      .ok (toBytesBE size (Int.toNat (if x < 0 then x + ((2 ^ (8 * size) : Nat) : Int) else x))) := by
  unfold SerializeSigned
  rw [if_neg]
  simp only [not_or, not_lt, not_le]
  exact ⟨by omega, by omega⟩

theorem DeserializeSigned_SerializeSigned (size : Nat) (hs : 0 < size) (x : Int)
    (h1 : -((2 ^ (8 * size - 1) : Nat) : Int) ≤ x)
    (h2 : x < ((2 ^ (8 * size - 1) : Nat) : Int))
    (bs : List Nat) (hbs : SerializeSigned size x = .ok bs) :
    DeserializeSigned size bs = .ok x := by
  rw [SerializeSigned_ok size x h1 h2] at hbs
  injection hbs with hb
  subst hb
  have hpow : (256 : Nat) ^ size = 2 ^ (8 * size) := by
    rw [show (256 : Nat) = 2 ^ 8 from by norm_num, ← pow_mul]
  have hHN : 2 ^ (8 * size - 1) * 2 = 2 ^ (8 * size) := by
    rw [← pow_succ]
    congr 1
    omega
  by_cases hx : x < 0
  · have hub : Int.toNat (if x < 0 then x + ((2 ^ (8 * size) : Nat) : Int) else x) < 256 ^ size := by
      rw [if_pos hx, hpow]
      omega
    unfold DeserializeSigned
    rw [if_neg (by rw [toBytesBE_length]; simp)]
    rw [fromBytesBE_toBytesBE size _ hub]
    rw [if_pos (by rw [if_pos hx]; omega)]
    rw [if_pos hx]
    congr 1
    omega
  · have hub : Int.toNat (if x < 0 then x + ((2 ^ (8 * size) : Nat) : Int) else x) < 256 ^ size := by
      rw [if_neg hx, hpow]
      omega
    unfold DeserializeSigned
    rw [if_neg (by rw [toBytesBE_length]; simp)]
    rw [fromBytesBE_toBytesBE size _ hub]
    rw [if_neg (by rw [if_neg hx]; omega)]
    rw [if_neg hx]
    congr 1
    omega

theorem SerializeSigned_length (size : Nat) (x : Int) (bs : List Nat)
    (hbs : SerializeSigned size x = .ok bs) : bs.length = size := by
  unfold SerializeSigned at hbs
  by_cases h : x < -((2 ^ (8 * size - 1) : Nat) : Int) ∨ ((2 ^ (8 * size - 1) : Nat) : Int) ≤ x
  · rw [if_pos h] at hbs
    exact absurd hbs (by simp)
  · rw [if_neg h] at hbs
    injection hbs with hb
    rw [← hb, toBytesBE_length]

/-- C3: for every OnchainConfig with Min ≤ Max whose values fit the 32-byte
signed range, Decode (Encode {Min, Max}) recovers {Min, Max}, and Encode
returns exactly 96 bytes. -/
theorem onchainConfig_encode_decode_roundtrip (Min Max : Int)
    (hmin : -(2 : Int) ^ 255 ≤ Min) (hle : Min ≤ Max) (hmax : Max < (2 : Int) ^ 255) :
    ∃ b, Encode ⟨Min, Max⟩ = .ok b ∧ b.length = 96 ∧ Decode b = .ok ⟨Min, Max⟩ := by
  have cast255 : ((2 ^ (8 * 32 - 1) : Nat) : Int) = 2 ^ 255 := by push_cast
  have hserVer := SerializeSigned_ok 32 onchainConfigVersion
    (by rw [cast255]; norm_num [onchainConfigVersion])
    (by rw [cast255]; norm_num [onchainConfigVersion])
  have hserMin := SerializeSigned_ok 32 Min (by rw [cast255]; exact hmin) (by rw [cast255]; omega)
  have hserMax := SerializeSigned_ok 32 Max (by rw [cast255]; omega) (by rw [cast255]; exact hmax)
  obtain ⟨vb, hvb⟩ : ∃ l, SerializeSigned 32 onchainConfigVersion = .ok l := ⟨_, hserVer⟩
  obtain ⟨mb, hmb⟩ : ∃ l, SerializeSigned 32 Min = .ok l := ⟨_, hserMin⟩
  obtain ⟨xb, hxb⟩ : ∃ l, SerializeSigned 32 Max = .ok l := ⟨_, hserMax⟩
  have hvbl := SerializeSigned_length 32 _ _ hvb
  have hmbl := SerializeSigned_length 32 _ _ hmb
  have hxbl := SerializeSigned_length 32 _ _ hxb
  have hvdes := DeserializeSigned_SerializeSigned 32 (by norm_num) onchainConfigVersion
    (by rw [cast255]; norm_num [onchainConfigVersion])
    (by rw [cast255]; norm_num [onchainConfigVersion]) vb hvb
  have hmdes := DeserializeSigned_SerializeSigned 32 (by norm_num) Min
    (by rw [cast255]; exact hmin) (by rw [cast255]; omega) mb hmb
  have hxdes := DeserializeSigned_SerializeSigned 32 (by norm_num) Max
    (by rw [cast255]; omega) (by rw [cast255]; exact hmax) xb hxb
  refine ⟨vb ++ (mb ++ xb), ?_, ?_, ?_⟩
  · unfold Encode
    rw [hvb, hmb, hxb]
  · simp [hvbl, hmbl, hxbl]
  · have h64 : (vb ++ (mb ++ xb)).drop 64 = xb := by
      rw [← List.append_assoc]
      exact List.drop_left' (by simp [hvbl, hmbl])
    unfold Decode
    rw [if_neg (by simp [hvbl, hmbl, hxbl, onchainConfigEncodedLength])]
    simp only [List.take_left' hvbl, hvdes, List.drop_left' hvbl, List.take_left' hmbl,
      hmdes, h64, hxdes]
    rw [if_neg (by simp), if_neg (not_not_intro hle)]

/-- Witness for C3 at Min = 100, Max = 200. -/
theorem onchainConfig_encode_decode_roundtrip_witness :
    -(2 : Int) ^ 255 ≤ 100 ∧ (100 : Int) ≤ 200 ∧ (200 : Int) < 2 ^ 255 ∧
      ∃ b, Encode ⟨100, 200⟩ = .ok b ∧ b.length = 96 ∧ Decode b = .ok ⟨100, 200⟩ :=
  ⟨by norm_num, by norm_num, by norm_num,
    onchainConfig_encode_decode_roundtrip 100 200 (by norm_num) (by norm_num) (by norm_num)⟩

theorem DeserializeSigned_ok_of_length (b : List Nat) (h : b.length = 32) :
    ∃ v, DeserializeSigned 32 b = .ok v := by
  unfold DeserializeSigned
  rw [if_neg (by omega)]
  split
  · exact ⟨_, rfl⟩
  · exact ⟨_, rfl⟩

/-- C4: Decode succeeds exactly on well-formed buffers: length 96, first
32-byte word decoding to version 1, and decoded Min ≤ decoded Max; on every
other input it returns a validation error and no config. -/
theorem onchainConfig_decode_rejects_malformed (b : List Nat) :
    (∃ c, Decode b = .ok c) ↔
      (b.length = 96 ∧ DeserializeSigned 32 (b.take 32) = .ok onchainConfigVersion ∧
        ∃ mn mx, DeserializeSigned 32 ((b.drop 32).take 32) = .ok mn ∧
          DeserializeSigned 32 (b.drop 64) = .ok mx ∧ mn ≤ mx) := by
  unfold Decode onchainConfigEncodedLength
  by_cases hlen : b.length = 96
  case neg =>
    rw [if_pos (by omega)]
    constructor
    · rintro ⟨c, hc⟩
      cases hc
    · rintro ⟨h96, -⟩
      exact absurd h96 hlen
  case pos =>
    rw [if_neg (by omega)]
    obtain ⟨v, hv⟩ := DeserializeSigned_ok_of_length (b.take 32)
      (by rw [List.length_take]; omega)
    simp only [hv]
    by_cases hver : v = onchainConfigVersion
    · subst hver
      rw [if_neg (by simp)]
      obtain ⟨mn, hmn⟩ := DeserializeSigned_ok_of_length ((b.drop 32).take 32)
        (by rw [List.length_take, List.length_drop]; omega)
      obtain ⟨mx, hmx⟩ := DeserializeSigned_ok_of_length (b.drop 64)
        (by rw [List.length_drop]; omega)
      simp only [hmn, hmx]
      by_cases hcmp : mn ≤ mx
      · rw [if_neg (not_not_intro hcmp)]
        constructor
        · rintro -
          exact ⟨hlen, trivial, mn, mx, rfl, rfl, hcmp⟩
        · rintro -
          exact ⟨⟨mn, mx⟩, rfl⟩
      · rw [if_pos hcmp]
        constructor
        · rintro ⟨c, hc⟩
          cases hc
        · rintro ⟨-, -, mn', mx', hmn', hmx', hle'⟩
          injection hmn' with e1
          injection hmx' with e2
          subst e1
          subst e2
          exact absurd hle' hcmp
    · rw [if_pos hver]
      constructor
      · rintro ⟨c, hc⟩
        cases hc
      · rintro ⟨-, h1, -⟩
        injection h1 with e
        exact absurd e hver

/-- C9: Encode performs no Min ≤ Max validation: for the config
{Min := 300, Max := 100} (with Min > Max, both in the representable range),
Encode succeeds and returns a 96-byte buffer, yet Decode rejects that very
buffer. -/
theorem onchainConfig_encode_skips_min_le_max_validation :
    (300 : Int) > 100 ∧
      (Encode ⟨300, 100⟩).toOption.map List.length = some 96 ∧
      ((Encode ⟨300, 100⟩).bind Decode).toOption = none := by
  decide

end Mercury

namespace MedianLoop

/-- Connections handed out by the broker are opaque handles; modelled as
naturals. -/
abbrev Conn := Nat

/-- A Resource pairs an owned handle with a human-readable name used for
diagnostics and ordered release (median.go: resource). -/
structure Resource where
  conn : Conn
  name : String
deriving DecidableEq

/-- The four dependency ids carried by one composite build request
(pb.NewMedianFactoryRequest). -/
structure NewMedianFactoryRequest where
  MedianProviderID : Nat
  DataSourceID : Nat
  JuelsPerFeeCoinDataSourceID : Nat
  ErrorLogID : Nat
deriving DecidableEq

/-- Errors produced by the server-side composite build. `connDial` mirrors
ErrConnDial carrying the logical dependency name, the numeric id that failed
to dial, and the underlying transport cause; `implErr` is an error from the
underlying plugin implementation, passed through; `serveErr` is a failure of
the final registration. -/
inductive ServerErr
  | connDial (name : String) (id : Nat) (cause : String)
  | implErr (e : String)
  | serveErr (e : String)
deriving DecidableEq

/-- Environment of one server-side NewMedianFactory call: the outcome of
dialing each broker id, of the underlying implementation build, and of the
final factory registration. The broker internals are not part of the source
sample, so dialing is an oracle from ids to outcomes. -/
structure ServerEnv where
  dial : Nat → Except String Conn
  implNewMedianFactory : Except String Nat
  serveNewFactory : Except String Nat

/-- Result of a server-side NewMedianFactory call: the reply (or error), and
the resources released before returning, in release order. -/
structure ServerResult where
  ret : Except ServerErr Nat
  closed : List Resource

/-- Modelled from the spec: brokerExt.closeAll releases the given Resources
in the order given (broker.go is not part of the source sample; spec section
4.2). The returned list is the release order. -/
def closeAll (rs : List Resource) : List Resource := rs

/-- Shallow embedding of pluginMedianServer.NewMedianFactory
(median.go lines 118-165): dial DataSource, JuelsPerFeeCoinDataSource,
MedianProvider, ErrorLog in that fixed order; on a dial failure, close the
previously obtained resources (passing them to closeAll in acquisition
order) and return an ErrConnDial naming the failed step; on an
implementation failure close all four; on success register the factory,
handing it the four resources. -/
def pluginMedianServer.NewMedianFactory (env : ServerEnv)
    (request : NewMedianFactoryRequest) : ServerResult :=
  match env.dial request.DataSourceID with
  | .error e => ⟨.error (.connDial "DataSource" request.DataSourceID e), []⟩
  | .ok dsConn =>
    let dsRes : Resource := ⟨dsConn, "DataSource"⟩
    match env.dial request.JuelsPerFeeCoinDataSourceID with
    | .error e =>
      ⟨.error (.connDial "JuelsPerFeeCoinDataSource" request.JuelsPerFeeCoinDataSourceID e),
        closeAll [dsRes]⟩
    | .ok juelsConn =>
      let juelsRes : Resource := ⟨juelsConn, "JuelsPerFeeCoinDataSource"⟩
      match env.dial request.MedianProviderID with
      | .error e =>
        ⟨.error (.connDial "MedianProvider" request.MedianProviderID e),
          closeAll [dsRes, juelsRes]⟩
      | .ok providerConn =>
        let providerRes : Resource := ⟨providerConn, "MedianProvider"⟩
        match env.dial request.ErrorLogID with
        | .error e =>
          ⟨.error (.connDial "ErrorLog" request.ErrorLogID e),
            closeAll [dsRes, juelsRes, providerRes]⟩
        | .ok errorLogConn =>
          let errorLogRes : Resource := ⟨errorLogConn, "ErrorLog"⟩
          match env.implNewMedianFactory with
          | .error e =>
            ⟨.error (.implErr e), closeAll [dsRes, juelsRes, providerRes, errorLogRes]⟩
          | .ok _factory =>
            match env.serveNewFactory with
            | .error e => ⟨.error (.serveErr e), []⟩
            | .ok id => ⟨.ok id, []⟩

/-- C1 (amended): on the server side, when dialing dependency k fails, or the
underlying implementation build fails, exactly the Resources acquired in the
earlier steps are released — in acquisition order, the order they are handed
to closeAll — before the error is returned, and no acquired Resource is left
open. -/
theorem server_rollback_on_failure (env : ServerEnv) (request : NewMedianFactoryRequest) :
    (∀ e, env.dial request.DataSourceID = .error e →
      (pluginMedianServer.NewMedianFactory env request).closed = [] ∧
      (∃ err, (pluginMedianServer.NewMedianFactory env request).ret = .error err)) ∧
    (∀ c1 e, env.dial request.DataSourceID = .ok c1 →
      env.dial request.JuelsPerFeeCoinDataSourceID = .error e →
      (pluginMedianServer.NewMedianFactory env request).closed = [⟨c1, "DataSource"⟩] ∧
      (∃ err, (pluginMedianServer.NewMedianFactory env request).ret = .error err)) ∧
    (∀ c1 c2 e, env.dial request.DataSourceID = .ok c1 →
      env.dial request.JuelsPerFeeCoinDataSourceID = .ok c2 →
      env.dial request.MedianProviderID = .error e →
      (pluginMedianServer.NewMedianFactory env request).closed =
        [⟨c1, "DataSource"⟩, ⟨c2, "JuelsPerFeeCoinDataSource"⟩] ∧
      (∃ err, (pluginMedianServer.NewMedianFactory env request).ret = .error err)) ∧
    (∀ c1 c2 c3 e, env.dial request.DataSourceID = .ok c1 →
      env.dial request.JuelsPerFeeCoinDataSourceID = .ok c2 →
      env.dial request.MedianProviderID = .ok c3 →
      env.dial request.ErrorLogID = .error e →
      (pluginMedianServer.NewMedianFactory env request).closed =
        [⟨c1, "DataSource"⟩, ⟨c2, "JuelsPerFeeCoinDataSource"⟩, ⟨c3, "MedianProvider"⟩] ∧
      (∃ err, (pluginMedianServer.NewMedianFactory env request).ret = .error err)) ∧
    (∀ c1 c2 c3 c4 e, env.dial request.DataSourceID = .ok c1 →
      env.dial request.JuelsPerFeeCoinDataSourceID = .ok c2 →
      env.dial request.MedianProviderID = .ok c3 →
      env.dial request.ErrorLogID = .ok c4 →
      env.implNewMedianFactory = .error e →
      (pluginMedianServer.NewMedianFactory env request).closed =
        [⟨c1, "DataSource"⟩, ⟨c2, "JuelsPerFeeCoinDataSource"⟩, ⟨c3, "MedianProvider"⟩,
          ⟨c4, "ErrorLog"⟩] ∧
      (∃ err, (pluginMedianServer.NewMedianFactory env request).ret = .error err)) := by
  refine ⟨?_, ?_, ?_, ?_, ?_⟩
  · intro e h1
    simp [pluginMedianServer.NewMedianFactory, closeAll, h1]
  · intro c1 e h1 h2
    simp [pluginMedianServer.NewMedianFactory, closeAll, h1, h2]
  · intro c1 c2 e h1 h2 h3
    simp [pluginMedianServer.NewMedianFactory, closeAll, h1, h2, h3]
  · intro c1 c2 c3 e h1 h2 h3 h4
    simp [pluginMedianServer.NewMedianFactory, closeAll, h1, h2, h3, h4]
  · intro c1 c2 c3 c4 e h1 h2 h3 h4 h5
    simp [pluginMedianServer.NewMedianFactory, closeAll, h1, h2, h3, h4, h5]

/-- Witness for C1 (amended) at a concrete environment where the second dial
fails: exactly the DataSource resource is released. -/
theorem server_rollback_on_failure_witness :
    (pluginMedianServer.NewMedianFactory
        ⟨fun id => if id = 2 then .error "boom" else .ok id, .ok 7, .ok 8⟩
        ⟨3, 1, 2, 4⟩).closed = [⟨1, "DataSource"⟩] ∧
      (∃ err, (pluginMedianServer.NewMedianFactory
        ⟨fun id => if id = 2 then .error "boom" else .ok id, .ok 7, .ok 8⟩
        ⟨3, 1, 2, 4⟩).ret = .error err) :=
  (server_rollback_on_failure
    ⟨fun id => if id = 2 then .error "boom" else .ok id, .ok 7, .ok 8⟩
    ⟨3, 1, 2, 4⟩).2.1 1 "boom" rfl rfl

/-- Counterexample to C1 as stated: when the MedianProvider dial fails, the
resources of the two earlier steps are released in acquisition order
(DataSource first), not in reverse order of acquisition as the claim says. -/
theorem server_rollback_order_counterexample :
    (pluginMedianServer.NewMedianFactory
        ⟨fun id => if id = 3 then .error "transport refused" else .ok id, .ok 7, .ok 8⟩
        ⟨3, 1, 2, 4⟩).closed =
      [⟨1, "DataSource"⟩, ⟨2, "JuelsPerFeeCoinDataSource"⟩] ∧
    (pluginMedianServer.NewMedianFactory
        ⟨fun id => if id = 3 then .error "transport refused" else .ok id, .ok 7, .ok 8⟩
        ⟨3, 1, 2, 4⟩).closed ≠
      List.reverse [⟨1, "DataSource"⟩, ⟨2, "JuelsPerFeeCoinDataSource"⟩] := by
  decide

/-- C8: every dependency-dial failure on the server side surfaces as an
ErrConnDial carrying the logical dependency name, the numeric id that failed
to dial, and the underlying transport cause. -/
theorem server_dial_errors_are_structured (env : ServerEnv)
    (request : NewMedianFactoryRequest) :
    (∀ e, env.dial request.DataSourceID = .error e →
      (pluginMedianServer.NewMedianFactory env request).ret =
        .error (.connDial "DataSource" request.DataSourceID e)) ∧
    (∀ c1 e, env.dial request.DataSourceID = .ok c1 →
      env.dial request.JuelsPerFeeCoinDataSourceID = .error e →
      (pluginMedianServer.NewMedianFactory env request).ret =
        .error (.connDial "JuelsPerFeeCoinDataSource"
          request.JuelsPerFeeCoinDataSourceID e)) ∧
    (∀ c1 c2 e, env.dial request.DataSourceID = .ok c1 →
      env.dial request.JuelsPerFeeCoinDataSourceID = .ok c2 →
      env.dial request.MedianProviderID = .error e →
      (pluginMedianServer.NewMedianFactory env request).ret =
        .error (.connDial "MedianProvider" request.MedianProviderID e)) ∧
    (∀ c1 c2 c3 e, env.dial request.DataSourceID = .ok c1 →
      env.dial request.JuelsPerFeeCoinDataSourceID = .ok c2 →
      env.dial request.MedianProviderID = .ok c3 →
      env.dial request.ErrorLogID = .error e →
      (pluginMedianServer.NewMedianFactory env request).ret =
        .error (.connDial "ErrorLog" request.ErrorLogID e)) := by
  refine ⟨?_, ?_, ?_, ?_⟩
  · intro e h1
    simp [pluginMedianServer.NewMedianFactory, h1]
  · intro c1 e h1 h2
    simp [pluginMedianServer.NewMedianFactory, h1, h2]
  · intro c1 c2 e h1 h2 h3
    simp [pluginMedianServer.NewMedianFactory, h1, h2, h3]
  · intro c1 c2 c3 e h1 h2 h3 h4
    simp [pluginMedianServer.NewMedianFactory, h1, h2, h3, h4]

/-- Witness for C8 at a concrete environment where the MedianProvider dial
fails with a transport cause. -/
theorem server_dial_errors_are_structured_witness :
    (pluginMedianServer.NewMedianFactory
        ⟨fun id => if id = 30 then .error "refused" else .ok id, .ok 7, .ok 8⟩
        ⟨30, 10, 20, 40⟩).ret = .error (.connDial "MedianProvider" 30 "refused") :=
  (server_dial_errors_are_structured
    ⟨fun id => if id = 30 then .error "refused" else .ok id, .ok 7, .ok 8⟩
    ⟨30, 10, 20, 40⟩).2.2.1 10 20 "refused" rfl rfl rfl

/-- Broker registration primitives invoked while satisfying one composite
request, recorded for reasoning about which path the construction took. -/
inductive BrokerCall
  | serveNewCall (name : String)
  | serveCall (name : String)
deriving DecidableEq

/-- The triple returned by the client-side setup closure of NewMedianFactory
(median.go lines 39-96): the composite id, the dependent-resource list
handed back to the caller, and the error, mirroring the Go return values
`(id uint32, deps resources, err error)`. -/
structure SetupRet where
  id : Nat
  deps : List Resource
  err : Option String
deriving DecidableEq

/-- Result of running the client-side setup closure: what it returns, which
Resources it actually acquired while running (in acquisition order), and
which broker primitives it invoked. -/
structure SetupResult where
  ret : SetupRet
  acquired : List Resource
  calls : List BrokerCall
deriving DecidableEq

/-- Environment of one client-side NewMedianFactory call: outcomes of the
serveNew and serve registrations (by dependency name) and of the composite
NewMedianFactory RPC. The broker internals are not part of the source
sample, so registration is an oracle from names to outcomes. -/
structure ClientEnv where
  serveNewOutcome : String → Except String (Nat × Resource)
  serveOutcome : String → Except String (Nat × Resource)
  newMedianFactoryRPC : NewMedianFactoryRequest → Except String Nat

/-- Shallow embedding of the setup closure inside
PluginMedianClient.NewMedianFactory (median.go lines 39-96): register the
DataSource, the JuelsPerFeeCoinDataSource, the MedianProvider (via serve
when the provider already exposes a live connection — the GRPCClientConn
capability — and via serveNew otherwise), and the ErrorLog, then issue the
composite RPC. On every early error return the Go closure returns
`0, nil, err`, so the returned deps list is empty; on success it returns
`reply.ReportingPluginFactoryID, nil, nil`, also with an empty deps list.
`acquired` records what deps.Add had accumulated. -/
def PluginMedianClient.newMedianFactorySetup (providerIsGRPC : Bool)
    (env : ClientEnv) : SetupResult :=
  match env.serveNewOutcome "DataSource" with
  | .error e => ⟨⟨0, [], some e⟩, [], [.serveNewCall "DataSource"]⟩
  | .ok (dataSourceID, dsRes) =>
    match env.serveNewOutcome "JuelsPerFeeCoinDataSource" with
    | .error e =>
      ⟨⟨0, [], some e⟩, [dsRes],
        [.serveNewCall "DataSource", .serveNewCall "JuelsPerFeeCoinDataSource"]⟩
    | .ok (juelsPerFeeCoinDataSourceID, juelsPerFeeCoinDataSourceRes) =>
      let providerCall : BrokerCall :=
        if providerIsGRPC then .serveCall "MedianProvider"
        else .serveNewCall "MedianProvider"
      match (if providerIsGRPC then env.serveOutcome "MedianProvider"
             else env.serveNewOutcome "MedianProvider") with
      | .error e =>
        ⟨⟨0, [], some e⟩, [dsRes, juelsPerFeeCoinDataSourceRes],
          [.serveNewCall "DataSource", .serveNewCall "JuelsPerFeeCoinDataSource",
            providerCall]⟩
      | .ok (providerID, providerRes) =>
        match env.serveNewOutcome "ErrorLog" with
        | .error e =>
          ⟨⟨0, [], some e⟩, [dsRes, juelsPerFeeCoinDataSourceRes, providerRes],
            [.serveNewCall "DataSource", .serveNewCall "JuelsPerFeeCoinDataSource",
              providerCall, .serveNewCall "ErrorLog"]⟩
        | .ok (errorLogID, errorLogRes) =>
          match env.newMedianFactoryRPC
              ⟨providerID, dataSourceID, juelsPerFeeCoinDataSourceID, errorLogID⟩ with
          | .error e =>
            ⟨⟨0, [], some e⟩,
              [dsRes, juelsPerFeeCoinDataSourceRes, providerRes, errorLogRes],
              [.serveNewCall "DataSource", .serveNewCall "JuelsPerFeeCoinDataSource",
                providerCall, .serveNewCall "ErrorLog"]⟩
          | .ok factoryID =>
            ⟨⟨factoryID, [], none⟩,
              [dsRes, juelsPerFeeCoinDataSourceRes, providerRes, errorLogRes],
              [.serveNewCall "DataSource", .serveNewCall "JuelsPerFeeCoinDataSource",
                providerCall, .serveNewCall "ErrorLog"]⟩

/-- Modelled from the spec: when the lazily-run setup fails, the client conn
machinery can release only the Resources the setup returned to it, closing
them in reverse order before surfacing the error (broker.go is not part of
the source sample; spec sections 4.2-4.3). Returns the release order. -/
def clientConnClosedOnFailure (r : SetupResult) : List Resource :=
  match r.ret.err with
  | some _ => r.ret.deps.reverse
  | none => []

/-- Resources the setup acquired but nobody released on the failure path. -/
def abandonedOnFailure (r : SetupResult) : List Resource :=
  (r.acquired).filter (fun x => ¬ (clientConnClosedOnFailure r).contains x)

/-- The client handle returned to the caller wraps the setup closure
(median.go line 39: m.newClientConn; line 97: newReportingPluginFactoryClient). -/
structure ReportingPluginFactoryClient where
  setup : Unit → SetupResult

/-- Modelled from the spec: the handle produced by newClientConn stores the
setup closure and runs it only when the factory is first used; the first use
surfaces the setup error, if any (broker.go is not part of the source
sample). -/
def ReportingPluginFactoryClient.firstUse (fc : ReportingPluginFactoryClient) :
    Except String Nat :=
  match (fc.setup ()).ret.err with
  | some e => .error e
  | none => .ok (fc.setup ()).ret.id

/-- Shallow embedding of PluginMedianClient.NewMedianFactory
(median.go lines 38-98): wrap the setup closure in a client conn, wrap that
in a factory client, and return it together with a nil error — the setup is
not run here. -/
def PluginMedianClient.NewMedianFactory (providerIsGRPC : Bool)
    (env : ClientEnv) : ReportingPluginFactoryClient × Option String :=
  ({ setup := fun _ => PluginMedianClient.newMedianFactorySetup providerIsGRPC env },
    none)

/-- C2: the client-side setup closure drops its accumulated Resources on
failure. At an environment where the JuelsPerFeeCoinDataSource registration
fails after the DataSource registration succeeded, the setup returns an
error with an empty deps list, so the caller releases nothing and the
DataSource resource is abandoned without release. -/
theorem client_setup_abandons_acquired_resource :
    (PluginMedianClient.newMedianFactorySetup false
        ⟨fun name => if name = "JuelsPerFeeCoinDataSource" then .error "boom"
          else .ok (1, ⟨11, name⟩),
          fun name => .ok (2, ⟨22, name⟩), fun _ => .ok 99⟩).ret.err = some "boom" ∧
    (PluginMedianClient.newMedianFactorySetup false
        ⟨fun name => if name = "JuelsPerFeeCoinDataSource" then .error "boom"
          else .ok (1, ⟨11, name⟩),
          fun name => .ok (2, ⟨22, name⟩), fun _ => .ok 99⟩).acquired =
      [⟨11, "DataSource"⟩] ∧
    clientConnClosedOnFailure (PluginMedianClient.newMedianFactorySetup false
        ⟨fun name => if name = "JuelsPerFeeCoinDataSource" then .error "boom"
          else .ok (1, ⟨11, name⟩),
          fun name => .ok (2, ⟨22, name⟩), fun _ => .ok 99⟩) = [] ∧
    abandonedOnFailure (PluginMedianClient.newMedianFactorySetup false
        ⟨fun name => if name = "JuelsPerFeeCoinDataSource" then .error "boom"
          else .ok (1, ⟨11, name⟩),
          fun name => .ok (2, ⟨22, name⟩), fun _ => .ok 99⟩) =
      [⟨11, "DataSource"⟩] := by
  decide

/-- C10: the client-side NewMedianFactory itself always returns a nil error,
for every environment; a setup failure surfaces only on later use of the
returned factory handle. -/
theorem client_newMedianFactory_never_errors (providerIsGRPC : Bool) (env : ClientEnv) :
    (PluginMedianClient.NewMedianFactory providerIsGRPC env).2 = none ∧
    (∀ e, (PluginMedianClient.newMedianFactorySetup providerIsGRPC env).ret.err = some e →
      ((PluginMedianClient.NewMedianFactory providerIsGRPC env).1).firstUse =
        .error e) := by
  refine ⟨rfl, ?_⟩
  intro e he
  simp [ReportingPluginFactoryClient.firstUse, PluginMedianClient.NewMedianFactory, he]

/-- Witness for C10 at an environment where every dependency registration
fails: construction still reports no error, and the failure surfaces on
first use. -/
theorem client_newMedianFactory_never_errors_witness :
    (PluginMedianClient.NewMedianFactory true
        ⟨fun _ => .error "down", fun _ => .error "down", fun _ => .error "down"⟩).2 =
      none ∧
    ((PluginMedianClient.NewMedianFactory true
        ⟨fun _ => .error "down", fun _ => .error "down",
          fun _ => .error "down"⟩).1).firstUse = .error "down" :=
  ⟨(client_newMedianFactory_never_errors true
      ⟨fun _ => .error "down", fun _ => .error "down", fun _ => .error "down"⟩).1,
    (client_newMedianFactory_never_errors true
      ⟨fun _ => .error "down", fun _ => .error "down", fun _ => .error "down"⟩).2
      "down" rfl⟩

/-- C7: when the provider already exposes a live connection the construction
registers it via serve and never via serveNew; otherwise via serveNew and
never via serve; once the first two registrations succeed the proxy path
does invoke serve; and whenever the two registration primitives produce the
same outcome, both paths return the same result to the caller. -/
theorem client_provider_proxy_path (env : ClientEnv) :
    (BrokerCall.serveNewCall "MedianProvider" ∉
      (PluginMedianClient.newMedianFactorySetup true env).calls) ∧
    (BrokerCall.serveCall "MedianProvider" ∉
      (PluginMedianClient.newMedianFactorySetup false env).calls) ∧
    (∀ a b, env.serveNewOutcome "DataSource" = .ok a →
      env.serveNewOutcome "JuelsPerFeeCoinDataSource" = .ok b →
      BrokerCall.serveCall "MedianProvider" ∈
        (PluginMedianClient.newMedianFactorySetup true env).calls) ∧
    (env.serveOutcome "MedianProvider" = env.serveNewOutcome "MedianProvider" →
      (PluginMedianClient.newMedianFactorySetup true env).ret =
        (PluginMedianClient.newMedianFactorySetup false env).ret) := by
  refine ⟨?_, ?_, ?_, ?_⟩
  · rcases h1 : env.serveNewOutcome "DataSource" with e1 | ⟨a1, r1⟩
    · simp [PluginMedianClient.newMedianFactorySetup, h1]
    · rcases h2 : env.serveNewOutcome "JuelsPerFeeCoinDataSource" with e2 | ⟨a2, r2⟩
      · simp [PluginMedianClient.newMedianFactorySetup, h1, h2]
      · rcases h3 : env.serveOutcome "MedianProvider" with e3 | ⟨a3, r3⟩
        · simp [PluginMedianClient.newMedianFactorySetup, h1, h2, h3]
        · rcases h4 : env.serveNewOutcome "ErrorLog" with e4 | ⟨a4, r4⟩
          · simp [PluginMedianClient.newMedianFactorySetup, h1, h2, h3, h4]
          · rcases h5 : env.newMedianFactoryRPC ⟨a3, a1, a2, a4⟩ with e5 | f5
            · simp [PluginMedianClient.newMedianFactorySetup, h1, h2, h3, h4, h5]
            · simp [PluginMedianClient.newMedianFactorySetup, h1, h2, h3, h4, h5]
  · rcases h1 : env.serveNewOutcome "DataSource" with e1 | ⟨a1, r1⟩
    · simp [PluginMedianClient.newMedianFactorySetup, h1]
    · rcases h2 : env.serveNewOutcome "JuelsPerFeeCoinDataSource" with e2 | ⟨a2, r2⟩
      · simp [PluginMedianClient.newMedianFactorySetup, h1, h2]
      · rcases h3 : env.serveNewOutcome "MedianProvider" with e3 | ⟨a3, r3⟩
        · simp [PluginMedianClient.newMedianFactorySetup, h1, h2, h3]
        · rcases h4 : env.serveNewOutcome "ErrorLog" with e4 | ⟨a4, r4⟩
          · simp [PluginMedianClient.newMedianFactorySetup, h1, h2, h3, h4]
          · rcases h5 : env.newMedianFactoryRPC ⟨a3, a1, a2, a4⟩ with e5 | f5
            · simp [PluginMedianClient.newMedianFactorySetup, h1, h2, h3, h4, h5]
            · simp [PluginMedianClient.newMedianFactorySetup, h1, h2, h3, h4, h5]
  · rintro ⟨a1, r1⟩ ⟨a2, r2⟩ h1 h2
    rcases h3 : env.serveOutcome "MedianProvider" with e3 | ⟨a3, r3⟩
    · simp [PluginMedianClient.newMedianFactorySetup, h1, h2, h3]
    · rcases h4 : env.serveNewOutcome "ErrorLog" with e4 | ⟨a4, r4⟩
      · simp [PluginMedianClient.newMedianFactorySetup, h1, h2, h3, h4]
      · rcases h5 : env.newMedianFactoryRPC ⟨a3, a1, a2, a4⟩ with e5 | f5
        · simp [PluginMedianClient.newMedianFactorySetup, h1, h2, h3, h4, h5]
        · simp [PluginMedianClient.newMedianFactorySetup, h1, h2, h3, h4, h5]
  · intro h
    rcases h1 : env.serveNewOutcome "DataSource" with e1 | ⟨a1, r1⟩
    · simp [PluginMedianClient.newMedianFactorySetup, h1]
    · rcases h2 : env.serveNewOutcome "JuelsPerFeeCoinDataSource" with e2 | ⟨a2, r2⟩
      · simp [PluginMedianClient.newMedianFactorySetup, h1, h2]
      · rcases h3 : env.serveNewOutcome "MedianProvider" with e3 | ⟨a3, r3⟩
        · simp [PluginMedianClient.newMedianFactorySetup, h1, h2, h, h3]
        · rcases h4 : env.serveNewOutcome "ErrorLog" with e4 | ⟨a4, r4⟩
          · simp [PluginMedianClient.newMedianFactorySetup, h1, h2, h, h3, h4]
          · rcases h5 : env.newMedianFactoryRPC ⟨a3, a1, a2, a4⟩ with e5 | f5
            · simp [PluginMedianClient.newMedianFactorySetup, h1, h2, h, h3, h4, h5]
            · simp [PluginMedianClient.newMedianFactorySetup, h1, h2, h, h3, h4, h5]

/-- Witness for C7 at a concrete environment with both registration
primitives succeeding identically. -/
theorem client_provider_proxy_path_witness :
    BrokerCall.serveCall "MedianProvider" ∈
      (PluginMedianClient.newMedianFactorySetup true
        ⟨fun n => .ok (5, ⟨50, n⟩), fun n => .ok (5, ⟨50, n⟩), fun _ => .ok 77⟩).calls ∧
    (PluginMedianClient.newMedianFactorySetup true
        ⟨fun n => .ok (5, ⟨50, n⟩), fun n => .ok (5, ⟨50, n⟩), fun _ => .ok 77⟩).ret =
      (PluginMedianClient.newMedianFactorySetup false
        ⟨fun n => .ok (5, ⟨50, n⟩), fun n => .ok (5, ⟨50, n⟩), fun _ => .ok 77⟩).ret :=
  ⟨(client_provider_proxy_path
      ⟨fun n => .ok (5, ⟨50, n⟩), fun n => .ok (5, ⟨50, n⟩), fun _ => .ok 77⟩).2.2.1
      (5, ⟨50, "DataSource"⟩) (5, ⟨50, "JuelsPerFeeCoinDataSource"⟩) rfl rfl,
    (client_provider_proxy_path
      ⟨fun n => .ok (5, ⟨50, n⟩), fun n => .ok (5, ⟨50, n⟩), fun _ => .ok 77⟩).2.2.2 rfl⟩

/-- Wire-side observation of a BuildReport request
(pb.ParsedAttributedObservation): Observer travels as a uint32. -/
structure PbParsedAttributedObservation where
  Timestamp : Nat
  Value : Int
  JulesPerFeeCoin : Int
  Observer : Nat
deriving DecidableEq

/-- Domain-side observation (median.ParsedAttributedObservation): Observer is
an 8-bit OracleID, so the uint32-to-uint8 conversion in Go reduces the value
mod 256. -/
structure ParsedAttributedObservation where
  Timestamp : Nat
  Value : Int
  JuelsPerFeeCoin : Int
  Observer : Nat
deriving DecidableEq

/-- Opaque report bytes. -/
abbrev Report := List Nat

/-- Shallow embedding of the decode loop of reportCodecServer.BuildReport
(median.go lines 265-279): walk the request observations in order; the first
Observer above MaxUint8 aborts with a validation error; otherwise rebuild
the domain observation, with the Go uint8 conversion modelled as mod 256. -/
def reportCodecServer.buildObs :
    List PbParsedAttributedObservation → Except String (List ParsedAttributedObservation)
  | [] => .ok []
  | o :: rest =>
    if o.Observer > 255 then
      .error "expected uint8 Observer (max 255)"
    else
      match reportCodecServer.buildObs rest with
      | .error e => .error e
      | .ok l => .ok (⟨o.Timestamp, o.Value, o.JulesPerFeeCoin, o.Observer % 256⟩ :: l)

/-- Shallow embedding of reportCodecServer.BuildReport
(median.go lines 265-285): decode the request, then hand the decoded list to
the underlying ReportCodec implementation. -/
def reportCodecServer.BuildReport
    (impl : List ParsedAttributedObservation → Except String Report)
    (request : List PbParsedAttributedObservation) : Except String Report :=
  match reportCodecServer.buildObs request with
  | .error e => .error e
  | .ok obs => impl obs

/-- Reply of the LatestTransmissionDetails RPC
(pb.LatestTransmissionDetailsReply): ConfigDigest travels as bytes and Round
as a uint32. -/
structure LatestTransmissionDetailsReply where
  ConfigDigest : List Nat
  Epoch : Nat
  Round : Nat
  LatestAnswer : Int
  LatestTimestamp : Int
deriving DecidableEq

/-- The native tuple LatestTransmissionDetails returns on success. -/
structure TransmissionDetails where
  configDigest : List Nat
  epoch : Nat
  round : Nat
  latestAnswer : Int
  latestTimestamp : Int
deriving DecidableEq

/-- Shallow embedding of the reply conversion in
medianContractClient.LatestTransmissionDetails (median.go lines 309-329):
reject a digest whose length is not exactly 32, then reject a Round above
MaxUint8; the Go uint8 conversion is modelled as mod 256 and the digest is
copied verbatim. -/
def medianContractClient.LatestTransmissionDetails
    (reply : LatestTransmissionDetailsReply) : Except String TransmissionDetails :=
  if reply.ConfigDigest.length ≠ 32 then
    .error "expected ConfigDigest length 32"
  else if reply.Round > 255 then
    .error "expected uint8 Round (max 255)"
  else
    .ok ⟨reply.ConfigDigest, reply.Epoch, reply.Round % 256, reply.LatestAnswer,
      reply.LatestTimestamp⟩

/-- Reply of the LatestRoundRequested RPC (pb.LatestRoundRequestedReply). -/
structure LatestRoundRequestedReply where
  ConfigDigest : List Nat
  Epoch : Nat
  Round : Nat
deriving DecidableEq

/-- The native tuple LatestRoundRequested returns on success. -/
structure RoundRequested where
  configDigest : List Nat
  epoch : Nat
  round : Nat
deriving DecidableEq

/-- Shallow embedding of the reply conversion in
medianContractClient.LatestRoundRequested (median.go lines 331-348). -/
def medianContractClient.LatestRoundRequested
    (reply : LatestRoundRequestedReply) : Except String RoundRequested :=
  if reply.ConfigDigest.length ≠ 32 then
    .error "expected ConfigDigest length 32"
  else if reply.Round > 255 then
    .error "expected uint8 Round (max 255)"
  else
    .ok ⟨reply.ConfigDigest, reply.Epoch, reply.Round % 256⟩

theorem buildObs_ok_of (obs : List PbParsedAttributedObservation)
    (h : ∀ o ∈ obs, o.Observer ≤ 255) :
    reportCodecServer.buildObs obs =
      .ok (obs.map fun o => ⟨o.Timestamp, o.Value, o.JulesPerFeeCoin, o.Observer⟩) := by
  induction obs with
  | nil => rfl
  | cons o rest ih =>
    have ho : o.Observer ≤ 255 := h o (List.mem_cons_self o rest)
    simp only [reportCodecServer.buildObs]
    rw [if_neg (by omega), ih (fun o2 ho2 => h o2 (List.mem_cons_of_mem o ho2))]
    have hmod : o.Observer % 256 = o.Observer := Nat.mod_eq_of_lt (by omega)
    simp [hmod]

theorem buildObs_le255_of_ok (obs : List PbParsedAttributedObservation)
    (l : List ParsedAttributedObservation)
    (h : reportCodecServer.buildObs obs = .ok l) : ∀ o ∈ obs, o.Observer ≤ 255 := by
  induction obs generalizing l with
  | nil => simp
  | cons o rest ih =>
    simp only [reportCodecServer.buildObs] at h
    by_cases ho : o.Observer > 255
    · rw [if_pos ho] at h
      cases h
    · rw [if_neg ho] at h
      intro o2 ho2
      rcases List.mem_cons.mp ho2 with rfl | hmem
      · omega
      · rcases hrec : reportCodecServer.buildObs rest with e | l2
        · rw [hrec] at h
          cases h
        · exact ih l2 hrec o2 hmem

/-- C5: range validation in the wire conversions. On the server side a
BuildReport request decodes only when every Observer fits a uint8, and a
violation aborts before the underlying implementation is used; on the client
side the LatestTransmissionDetails and LatestRoundRequested replies are
accepted only when the ConfigDigest has length exactly 32 and the Round fits
a uint8, and on success the digest and round are carried over verbatim, with
no truncation or padding. -/
theorem wire_range_validation :
    (∀ obs : List PbParsedAttributedObservation,
      (∃ l, reportCodecServer.buildObs obs = .ok l) ↔ ∀ o ∈ obs, o.Observer ≤ 255) ∧
    (∀ obs e, reportCodecServer.buildObs obs = .error e →
      ∀ impl, reportCodecServer.BuildReport impl obs = .error e) ∧
    (∀ r : LatestTransmissionDetailsReply,
      (∃ d, medianContractClient.LatestTransmissionDetails r = .ok d) ↔
        (r.ConfigDigest.length = 32 ∧ r.Round ≤ 255)) ∧
    (∀ r d, medianContractClient.LatestTransmissionDetails r = .ok d →
      d.configDigest = r.ConfigDigest ∧ d.round = r.Round) ∧
    (∀ r : LatestRoundRequestedReply,
      (∃ d, medianContractClient.LatestRoundRequested r = .ok d) ↔
        (r.ConfigDigest.length = 32 ∧ r.Round ≤ 255)) ∧
    (∀ r d, medianContractClient.LatestRoundRequested r = .ok d →
      d.configDigest = r.ConfigDigest ∧ d.round = r.Round) := by
  refine ⟨?_, ?_, ?_, ?_, ?_, ?_⟩
  · intro obs
    constructor
    · rintro ⟨l, hl⟩
      exact buildObs_le255_of_ok obs l hl
    · intro h
      exact ⟨_, buildObs_ok_of obs h⟩
  · intro obs e he impl
    simp only [reportCodecServer.BuildReport, he]
  · intro r
    unfold medianContractClient.LatestTransmissionDetails
    by_cases h1 : r.ConfigDigest.length = 32
    · rw [if_neg (by omega)]
      by_cases h2 : r.Round > 255
      · rw [if_pos h2]
        constructor
        · rintro ⟨d, hd⟩
          cases hd
        · rintro ⟨-, h255⟩
          omega
      · rw [if_neg h2]
        constructor
        · rintro -
          exact ⟨h1, by omega⟩
        · rintro -
          exact ⟨_, rfl⟩
    · rw [if_pos (by omega)]
      constructor
      · rintro ⟨d, hd⟩
        cases hd
      · rintro ⟨h32, -⟩
        exact absurd h32 h1
  · intro r d hd
    unfold medianContractClient.LatestTransmissionDetails at hd
    by_cases h1 : r.ConfigDigest.length = 32
    · rw [if_neg (by omega)] at hd
      by_cases h2 : r.Round > 255
      · rw [if_pos h2] at hd
        cases hd
      · rw [if_neg h2] at hd
        injection hd with hdd
        rw [← hdd]
        exact ⟨rfl, Nat.mod_eq_of_lt (by omega)⟩
    · rw [if_pos (by omega)] at hd
      cases hd
  · intro r
    unfold medianContractClient.LatestRoundRequested
    by_cases h1 : r.ConfigDigest.length = 32
    · rw [if_neg (by omega)]
      by_cases h2 : r.Round > 255
      · rw [if_pos h2]
        constructor
        · rintro ⟨d, hd⟩
          cases hd
        · rintro ⟨-, h255⟩
          omega
      · rw [if_neg h2]
        constructor
        · rintro -
          exact ⟨h1, by omega⟩
        · rintro -
          exact ⟨_, rfl⟩
    · rw [if_pos (by omega)]
      constructor
      · rintro ⟨d, hd⟩
        cases hd
      · rintro ⟨h32, -⟩
        exact absurd h32 h1
  · intro r d hd
    unfold medianContractClient.LatestRoundRequested at hd
    by_cases h1 : r.ConfigDigest.length = 32
    · rw [if_neg (by omega)] at hd
      by_cases h2 : r.Round > 255
      · rw [if_pos h2] at hd
        cases hd
      · rw [if_neg h2] at hd
        injection hd with hdd
        rw [← hdd]
        exact ⟨rfl, Nat.mod_eq_of_lt (by omega)⟩
    · rw [if_pos (by omega)] at hd
      cases hd

/-- Witness for C5: an Observer of 256 makes BuildReport fail for every
implementation, and a digest of length 32 with Round 200 is accepted and
carried over verbatim. -/
theorem wire_range_validation_witness :
    (∀ impl, reportCodecServer.BuildReport impl [⟨100, 5, 2, 256⟩] =
      .error "expected uint8 Observer (max 255)") ∧
    ((⟨List.replicate 32 1, 7, 200⟩ : RoundRequested).configDigest =
        (⟨List.replicate 32 1, 7, 200⟩ : LatestRoundRequestedReply).ConfigDigest ∧
      (⟨List.replicate 32 1, 7, 200⟩ : RoundRequested).round =
        (⟨List.replicate 32 1, 7, 200⟩ : LatestRoundRequestedReply).Round) :=
  ⟨wire_range_validation.2.1 [⟨100, 5, 2, 256⟩] "expected uint8 Observer (max 255)" rfl,
    wire_range_validation.2.2.2.2.2 ⟨List.replicate 32 1, 7, 200⟩
      ⟨List.replicate 32 1, 7, 200⟩ rfl⟩

/-- C6: for every BuildReport request whose observations all carry an
Observer at most 255, the server-side decode hands the underlying
implementation a list of the same length and order whose Timestamp, Value,
JuelsPerFeeCoin and Observer equal those of the corresponding request
observation. -/
theorem reportCodecServer_buildReport_reconstructs
    (obs : List PbParsedAttributedObservation)
    (h : ∀ o ∈ obs, o.Observer ≤ 255) :
    reportCodecServer.buildObs obs =
      .ok (obs.map fun o => ⟨o.Timestamp, o.Value, o.JulesPerFeeCoin, o.Observer⟩) ∧
    (∀ impl, reportCodecServer.BuildReport impl obs =
      impl (obs.map fun o => ⟨o.Timestamp, o.Value, o.JulesPerFeeCoin, o.Observer⟩)) ∧
    (∀ l, reportCodecServer.buildObs obs = .ok l →
      l.length = obs.length ∧
      ∀ i (hi : i < obs.length) (hl : i < l.length),
        (l.get ⟨i, hl⟩).Timestamp = (obs.get ⟨i, hi⟩).Timestamp ∧
        (l.get ⟨i, hl⟩).Value = (obs.get ⟨i, hi⟩).Value ∧
        (l.get ⟨i, hl⟩).JuelsPerFeeCoin = (obs.get ⟨i, hi⟩).JulesPerFeeCoin ∧
        (l.get ⟨i, hl⟩).Observer = (obs.get ⟨i, hi⟩).Observer) := by
  have hok := buildObs_ok_of obs h
  refine ⟨hok, ?_, ?_⟩
  · intro impl
    simp only [reportCodecServer.BuildReport, hok]
  · intro l hl
    rw [hok] at hl
    injection hl with he
    subst he
    refine ⟨by rw [List.length_map], ?_⟩
    intro i hi hl2
    simp [List.getElem_map]

/-- Witness for C6 at the spec example: the single observation
(t = 100, value = 5, juels = 2, observer = 3) is reconstructed identically. -/
theorem reportCodecServer_buildReport_reconstructs_witness :
    reportCodecServer.buildObs [⟨100, 5, 2, 3⟩] = .ok [⟨100, 5, 2, 3⟩] :=
  (reportCodecServer_buildReport_reconstructs [⟨100, 5, 2, 3⟩] (by decide)).1

end MedianLoop
